import Mathlib

/-!
# Interactive Coffee Table: button debouncer and LED matrix addresser

A shallow embedding of `src/InteractiveCoffeeTable/InteractiveCoffeeTable.cpp`.

The class keeps four data members that matter for the debouncer
(`buttonDebounceDelay`, `buttonCallback`, `lastButtonState[]`,
`lastButtonEdgeTime[]`) and talks to three collaborators: the `LedControl`
matrix driver, the pin layer (`pinMode`, `digitalWrite`, `digitalRead`) and the
two `LiquidCrystal` displays.  Data members are fields of `Table`; every call
made on a collaborator is appended to a log kept in the same record, so that
"which writes were issued" is a statement about a list.

Machine integers are natural numbers with the wrap-around written out:
`uint8_t` values are reduced modulo `2^8`, `millis()` and the edge timestamps
modulo `2^32`.
-/

namespace ICT

/-! ## Constants of the header -/

/-- Modelled from the spec: the header `InteractiveCoffeeTable.h` is not among
the sources.  `NUM_BUTTONS` is the length of `button_pins`, whose initialiser
lists six pins (up, down, left, right, red, blue). -/
def NUM_BUTTONS : Nat := 6

/-- Modelled from the spec: length of `led_pins` (orange, green); the header is
not among the sources. -/
def NUM_LEDS : Nat := 2

/-- Modelled from the spec: length of `control_pins` (amplifier power,
bluetooth power, audio signal); the header is not among the sources. -/
def NUM_CONTROLS : Nat := 3

/-- Modelled from the spec: the number of driver chips, a 2x2 layout; the
header is not among the sources. -/
def NUM_MATRIX_DRIVERS : Nat := 4

/-- Modelled from the spec: rows (and columns) per driver chip, `N = 8`; the
header is not among the sources. -/
def NUM_MATRIX_DRIVER_ROW_COL : Nat := 8

/-- Modelled from the spec: rows (and columns) of the whole panel, `2N = 16`;
the header is not among the sources. -/
def NUM_MATRIX_ROW_COL : Nat := 16

/-- Modelled from the spec: the row bitmask with all eight bits set; the header
is not among the sources. -/
def MATRIX_ROW_FULL : Nat := 255

/-! ## Collaborators -/

/-- One call made on the `LedControl` object `matrix`. -/
inductive DriverCall where
  | shutdown (addr : Nat) (status : Nat)
  | setIntensity (addr : Nat) (intensity : Nat)
  | clearDisplay (addr : Nat)
  | setRow (addr : Nat) (row : Nat) (value : Nat)
  | setLed (addr : Nat) (row : Nat) (col : Nat) (state : Nat)
  deriving DecidableEq

/-- An entry of one of the three pin tables of the source file. -/
inductive Pin where
  | button_pins (i : Nat)
  | led_pins (i : Nat)
  | control_pins (i : Nat)
  deriving DecidableEq

/-- Pin direction, the second argument of `pinMode`. -/
inductive PinMode where
  | INPUT
  | OUTPUT
  deriving DecidableEq

/-- Level written by `digitalWrite(pin, LOW)`. -/
def LOW : Nat := 0

/-- Level written by `digitalWrite(pin, HIGH)`. -/
def HIGH : Nat := 1

/-- One write-side call made on the pin layer. -/
inductive PinCall where
  | pinMode (pin : Pin) (mode : PinMode)
  | digitalWrite (pin : Pin) (level : Nat)
  deriving DecidableEq

/-- The two character displays, indices into the member array `lcd`. -/
inductive ICT_LCD where
  | LCD_20X4
  | LCD_40X2
  deriving DecidableEq

/-- One call made on a `LiquidCrystal` object. -/
inductive LcdCall where
  | begin (lcd : ICT_LCD) (cols : Nat) (rows : Nat)
  | setCursor (lcd : ICT_LCD) (column : Nat) (row : Nat)
  | print (lcd : ICT_LCD) (text : String)
  | clear (lcd : ICT_LCD)
  deriving DecidableEq

/-- One invocation `buttonCallback((ICT_Button) i, state)`; `fn` is the
function pointer that was called. -/
structure CallbackCall where
  fn : Nat
  button : Nat
  state : Nat
  deriving DecidableEq

/-! ## The object -/

/-- Modelled from the spec: the class declaration is in the header, which is
not among the sources.  The fields are the data members the source file uses,
together with the logs of the calls made on its collaborators.
`buttonDebounceDelay` is a `uint16_t` (the type of its accessors),
`buttonCallback = none` is the `NULL` pointer, `lastButtonState` holds
`uint8_t` values and `lastButtonEdgeTime` holds the `unsigned long` values of
`millis()`.  The two arrays are indexed by button number; the code touches
only indices below `NUM_BUTTONS`. -/
structure Table where
  buttonDebounceDelay : Nat
  buttonCallback : Option Nat
  lastButtonState : Nat → Nat
  lastButtonEdgeTime : Nat → Nat
  matrix : List DriverCall
  pins : List PinCall
  lcd : List LcdCall
  callbackLog : List CallbackCall

/-- The constructor `InteractiveCoffeeTable::InteractiveCoffeeTable()`.
`storage` is the memory the object is built in, as it is on entry; the
constructor assigns `buttonDebounceDelay` and `buttonCallback`, creates and
sets up the matrix driver and the two displays and configures the pins.
`DEFAULT_BUTTON_DEBOUNCE_MS` is a header constant that is not among the
sources and is taken as a parameter. -/
def InteractiveCoffeeTable (DEFAULT_BUTTON_DEBOUNCE_MS : Nat) (storage : Table) : Table :=
  let t : Table :=
    { storage with
      buttonDebounceDelay := DEFAULT_BUTTON_DEBOUNCE_MS % 2 ^ 16
      buttonCallback := none }
  let t : Table := { t with matrix := [] }
  let t : Table := (List.range NUM_MATRIX_DRIVERS).foldl
    (fun t i => { t with matrix := t.matrix ++
      [DriverCall.shutdown i 0, DriverCall.setIntensity i 8, DriverCall.clearDisplay i] }) t
  let t : Table := { t with lcd := t.lcd ++ [LcdCall.begin ICT_LCD.LCD_20X4 20 4] }
  let t : Table := { t with lcd := t.lcd ++ [LcdCall.begin ICT_LCD.LCD_40X2 40 2] }
  let t : Table := (List.range NUM_BUTTONS).foldl
    (fun t i => { t with pins := t.pins ++
      [PinCall.pinMode (Pin.button_pins i) PinMode.INPUT,
       PinCall.digitalWrite (Pin.button_pins i) HIGH] }) t
  let t : Table := (List.range NUM_LEDS).foldl
    (fun t i => { t with pins := t.pins ++
      [PinCall.pinMode (Pin.led_pins i) PinMode.OUTPUT,
       PinCall.digitalWrite (Pin.led_pins i) LOW] }) t
  (List.range NUM_CONTROLS).foldl
    (fun t i => { t with pins := t.pins ++
      [PinCall.pinMode (Pin.control_pins i) PinMode.OUTPUT,
       PinCall.digitalWrite (Pin.control_pins i) LOW] }) t

/-- The accessor `getButtonState(button)`: the last recorded state. -/
def getButtonState (t : Table) (button : Nat) : Nat :=
  t.lastButtonState button

/-- The mutator `setButtonCallback(callback)`. -/
def setButtonCallback (t : Table) (callback : Option Nat) : Table :=
  { t with buttonCallback := callback }

/-- The accessor `getButtonDebounceTime()`. -/
def getButtonDebounceTime (t : Table) : Nat :=
  t.buttonDebounceDelay

/-- The mutator `setButtonDebounceTime(time)`, `time` a `uint16_t`. -/
def setButtonDebounceTime (t : Table) (time : Nat) : Table :=
  { t with buttonDebounceDelay := time % 2 ^ 16 }

/-! ## Polling -/

/-- What the outside world answers during one run of `pollButtons`.  Each of
the three calls below is made at most once per loop iteration, so the answers
are indexed by the loop counter `i`:
`millisCheck i` is the value of `millis()` in the debounce test,
`digitalRead i` is the value of `digitalRead(button_pins[i])`,
`millisEdge i` is the value of `millis()` stored as the new edge time. -/
structure PollInput where
  millisCheck : Nat → Nat
  digitalRead : Nat → Nat
  millisEdge : Nat → Nat

/-- A poll during which the clock reads `now` at every call of `millis()` and
the button lines show `levels`. -/
def PollInput.atTime (now : Nat) (levels : Nat → Nat) : PollInput :=
  { millisCheck := fun _ => now, digitalRead := levels, millisEdge := fun _ => now }

/-- Subtraction of two `unsigned long` values, as the expression
`millis() - lastButtonEdgeTime[i]` computes it. -/
def elapsed (now last : Nat) : Nat :=
  (now % 2 ^ 32 + (2 ^ 32 - last % 2 ^ 32)) % 2 ^ 32

/-- The expression `!digitalRead(pin)` stored in a `uint8_t`: `1` (pressed)
when the line is low, `0` (released) otherwise. -/
def sampleState (level : Nat) : Nat :=
  if level = 0 then 1 else 0

/-- The body of the loop of `pollButtons` for loop counter `i`.  The callback
is a function outside the class: its call is recorded in `callbackLog`, and it
is taken not to change the object while it runs. -/
def pollButton (inp : PollInput) (t : Table) (i : Nat) : Table :=
  if elapsed (inp.millisCheck i) (t.lastButtonEdgeTime i) ≥ t.buttonDebounceDelay then
    let state := sampleState (inp.digitalRead i)
    if state ≠ t.lastButtonState i then
      let t1 : Table :=
        match t.buttonCallback with
        | some fn => { t with callbackLog := t.callbackLog ++ [CallbackCall.mk fn i state] }
        | none => t
      { t1 with
        lastButtonState := Function.update t1.lastButtonState i state
        lastButtonEdgeTime := Function.update t1.lastButtonEdgeTime i (inp.millisEdge i % 2 ^ 32) }
    else t
  else t

/-- The method `pollButtons()`. -/
def pollButtons (inp : PollInput) (t : Table) : Table :=
  (List.range NUM_BUTTONS).foldl (pollButton inp) t

/-- Successive runs of `pollButtons`, one per element of `inps`, oldest
first. -/
def pollMany (inps : List PollInput) (t : Table) : Table :=
  inps.foldl (fun t inp => pollButtons inp t) t

/-! ## Matrix -/

/-- The method `matrixClear()`. -/
def matrixClear (t : Table) : Table :=
  (List.range NUM_MATRIX_DRIVERS).foldl
    (fun t i => { t with matrix := t.matrix ++ [DriverCall.clearDisplay i] }) t

/-- The method `matrixSetRow(address, row, rowData)`. -/
def matrixSetRow (t : Table) (address row rowData : Nat) : Table :=
  { t with matrix := t.matrix ++ [DriverCall.setRow address row rowData] }

/-- The method `matrixFullOn()`. -/
def matrixFullOn (t : Table) : Table :=
  (List.range NUM_MATRIX_DRIVERS).foldl
    (fun t i => (List.range NUM_MATRIX_DRIVER_ROW_COL).foldl
      (fun t j => matrixSetRow t i j MATRIX_ROW_FULL) t) t

/-- The value of `NUM_MATRIX_DRIVER_ROW_COL - (y % NUM_MATRIX_DRIVER_ROW_COL) - 1`
as the C expression computes it, in `int`, before it is stored in a
`uint8_t`. -/
def outputXExpr (y : Nat) : Int :=
  (NUM_MATRIX_DRIVER_ROW_COL : Int) - ((y % NUM_MATRIX_DRIVER_ROW_COL : Nat) : Int) - 1

/-- The method `matrixSetPixel(x, y, state)`. -/
def matrixSetPixel (t : Table) (x y state : Nat) : Table :=
  if x ≥ NUM_MATRIX_ROW_COL ∨ y ≥ NUM_MATRIX_ROW_COL then t
  else
    let outputX : Nat := (outputXExpr y % 256).toNat
    let outputY : Nat := (x % NUM_MATRIX_DRIVER_ROW_COL) % 256
    let address : Nat :=
      if y / NUM_MATRIX_DRIVER_ROW_COL ≠ 0 ∧ x / NUM_MATRIX_DRIVER_ROW_COL ≠ 0 then 1
      else if y / NUM_MATRIX_DRIVER_ROW_COL ≠ 0 then 0
      else if x / NUM_MATRIX_DRIVER_ROW_COL ≠ 0 then 3
      else 2
    { t with matrix := t.matrix ++ [DriverCall.setLed address outputY outputX state] }


/-! ## Definitions used to state the properties -/

/-- The chip of a quadrant in the words of the specification: `2` when both
quotients `x div N` and `y div N` are zero, `3` when only the one of `x` is
non-zero, `0` when only the one of `y` is non-zero, `1` when both are. -/
def quadrantChip (qx qy : Nat) : Nat :=
  if qx = 0 ∧ qy = 0 then 2
  else if qy = 0 then 3
  else if qx = 0 then 0
  else 1

/-- Every (chip, row) pair of the panel, chip by chip and row by row. -/
def chipRowPairs : List (Nat × Nat) :=
  (List.range NUM_MATRIX_DRIVERS).flatMap
    (fun chip => (List.range NUM_MATRIX_DRIVER_ROW_COL).map (fun row => (chip, row)))

/-- The specification of `fullOn`: `matrixSetRow(chip, row, full)` called for
every pair of the list, in order. -/
def setRowForAll (pairs : List (Nat × Nat)) (t : Table) : Table :=
  pairs.foldl (fun t p => matrixSetRow t p.1 p.2 MATRIX_ROW_FULL) t

/-- The row write with the all-bits-set bitmask for a (chip, row) pair. -/
def fullRow (p : Nat × Nat) : DriverCall :=
  DriverCall.setRow p.1 p.2 MATRIX_ROW_FULL

/-- The callback invocations recorded so far for button `i`. -/
def callsFor (t : Table) (i : Nat) : List CallbackCall :=
  t.callbackLog.filter (fun c => decide (c.button = i))

/-- What the debouncer holds about button `i`: recorded state, edge time, the
shared delay, the registered callback and the invocations made for `i`. -/
def view (t : Table) (i : Nat) : Nat × Nat × Nat × Option Nat × List CallbackCall :=
  (t.lastButtonState i, t.lastButtonEdgeTime i, t.buttonDebounceDelay, t.buttonCallback,
    callsFor t i)

/-- The invocations a confirmed edge on button `i` makes: one when a callback
is registered, none when the pointer is `NULL`. -/
def edgeCalls (cb : Option Nat) (i state : Nat) : List CallbackCall :=
  match cb with
  | some fn => [CallbackCall.mk fn i state]
  | none => []

/-! ## Concrete inputs -/

/-- A table at the start of the debounce scenario: delay 20 ms, a callback
registered at address 7, every button released with edge time 0, nothing
logged. -/
def scenarioTable : Table :=
  { buttonDebounceDelay := 20
    buttonCallback := some 7
    lastButtonState := fun _ => 0
    lastButtonEdgeTime := fun _ => 0
    matrix := []
    pins := []
    lcd := []
    callbackLog := [] }

/-- Button lines with button 0 held down (its line low) and the others up. -/
def pressed0 (i : Nat) : Nat :=
  if i = 0 then LOW else HIGH

/-- Button lines with every button up (all lines high). -/
def allReleased (_ : Nat) : Nat :=
  HIGH

/-- Memory that is not zeroed, as an object built on the stack or on the heap
finds it: the bytes of both button arrays hold left-over values. -/
def dirtyStorage : Table :=
  { buttonDebounceDelay := 0
    buttonCallback := none
    lastButtonState := fun _ => 1
    lastButtonEdgeTime := fun _ => 1000
    matrix := []
    pins := []
    lcd := []
    callbackLog := [] }

/-! ## Matrix addresser: auxiliary facts -/

theorem outputXExpr_range (y : Nat) : 0 ≤ outputXExpr y ∧ outputXExpr y < 8 := by
  unfold outputXExpr NUM_MATRIX_DRIVER_ROW_COL
  omega

theorem outputX_eq (y : Nat) : (outputXExpr y % 256).toNat = 7 - y % 8 := by
  unfold outputXExpr NUM_MATRIX_DRIVER_ROW_COL
  omega

theorem outputX_cast (y : Nat) : ((7 - y % 8 : Nat) : Int) = outputXExpr y := by
  unfold outputXExpr NUM_MATRIX_DRIVER_ROW_COL
  omega

theorem matrixSetPixel_inside (t : Table) (x y state : Nat) (hx : x < 16) (hy : y < 16) :
    matrixSetPixel t x y state =
      { t with matrix := t.matrix ++
          [DriverCall.setLed (quadrantChip (x / 8) (y / 8)) (x % 8) (7 - y % 8) state] } := by
  have h1 : ¬ (x ≥ NUM_MATRIX_ROW_COL ∨ y ≥ NUM_MATRIX_ROW_COL) := by
    unfold NUM_MATRIX_ROW_COL; omega
  have h2 : (x % 8) % 256 = x % 8 := by omega
  have h3 : (if y / 8 ≠ 0 ∧ x / 8 ≠ 0 then 1
      else if y / 8 ≠ 0 then 0 else if x / 8 ≠ 0 then 3 else 2) = quadrantChip (x / 8) (y / 8) := by
    unfold quadrantChip
    by_cases hqx : x / 8 = 0 <;> by_cases hqy : y / 8 = 0 <;> simp [hqx, hqy]
  unfold matrixSetPixel
  rw [if_neg h1]
  simp only [outputX_eq]
  simp only [NUM_MATRIX_DRIVER_ROW_COL, h2, h3]

theorem matrixSetPixel_inside_log (t : Table) (x y state : Nat) (hx : x < 16) (hy : y < 16) :
    (matrixSetPixel t x y state).matrix = t.matrix ++
      [DriverCall.setLed (quadrantChip (x / 8) (y / 8)) (x % 8) (7 - y % 8) state] := by
  rw [matrixSetPixel_inside t x y state hx hy]

theorem quadrantChip_lt (qx qy : Nat) : quadrantChip qx qy < 4 := by
  unfold quadrantChip
  split_ifs <;> omega

theorem quadrantChip_inj (qx qy qx' qy' : Nat) (hx : qx < 2) (hy : qy < 2)
    (hx' : qx' < 2) (hy' : qy' < 2) (h : quadrantChip qx qy = quadrantChip qx' qy') :
    qx = qx' ∧ qy = qy' := by
  interval_cases qx <;> interval_cases qy <;> interval_cases qx' <;> interval_cases qy' <;>
    simp [quadrantChip] at h ⊢

theorem foldl_matrixSetRow_matrix (i : Nat) (l : List Nat) (t : Table) :
    l.foldl (fun t j => matrixSetRow t i j MATRIX_ROW_FULL) t =
      { t with matrix := t.matrix ++ l.map (fun j => fullRow (i, j)) } := by
  induction l generalizing t with
  | nil => simp
  | cons j l ih =>
    simp only [List.foldl_cons, ih]
    simp [matrixSetRow, fullRow]

theorem setRowForAll_eq (pairs : List (Nat × Nat)) (t : Table) :
    setRowForAll pairs t = { t with matrix := t.matrix ++ pairs.map fullRow } := by
  unfold setRowForAll
  induction pairs generalizing t with
  | nil => simp
  | cons p l ih =>
    simp only [List.foldl_cons, ih]
    simp [matrixSetRow, fullRow]

theorem foldl_rows_eq (n : Nat) (l : List Nat) (t : Table) (ps : List (Nat × Nat))
    (hps : ps = l.flatMap (fun chip => (List.range n).map (fun row => (chip, row)))) :
    l.foldl (fun t i => (List.range n).foldl
        (fun t j => matrixSetRow t i j MATRIX_ROW_FULL) t) t =
      { t with matrix := t.matrix ++ ps.map fullRow } := by
  subst hps
  induction l generalizing t with
  | nil => simp
  | cons i l ih =>
    simp only [foldl_matrixSetRow_matrix] at ih ⊢
    simp only [List.foldl_cons, ih]
    simp [List.map_append, Function.comp_def]

theorem matrixFullOn_eq (t : Table) :
    matrixFullOn t = { t with matrix := t.matrix ++ chipRowPairs.map fullRow } := by
  unfold matrixFullOn
  exact foldl_rows_eq _ _ t chipRowPairs rfl

theorem mem_chipRowPairs (chip row : Nat) :
    (chip, row) ∈ chipRowPairs ↔
      chip < NUM_MATRIX_DRIVERS ∧ row < NUM_MATRIX_DRIVER_ROW_COL := by
  simp [chipRowPairs]

theorem fullRow_injective : Function.Injective fullRow := by
  intro p q h
  simp only [fullRow, DriverCall.setRow.injEq] at h
  exact Prod.ext h.1 h.2.1

/-! ## Matrix addresser: the properties -/

/-- C1: inside the 16x16 panel `matrixSetPixel(x, y, state)` leaves the object
as it was except for one more driver call, the single-LED write
`setLed(chip, x mod 8, 8 - (y mod 8) - 1, state)` whose chip is the one the
quadrant `(x div 8, y div 8)` selects (2, 3, 0, 1 for none, x-only, y-only,
both); `matrixSetPixel(15, 0, on)` writes to chip 3 with both local
coordinates equal to 7. -/
theorem matrixSetPixel_single_write (t : Table) (x y state : Nat)
    (hx : x < 16) (hy : y < 16) :
    matrixSetPixel t x y state =
        { t with matrix := t.matrix ++
            [DriverCall.setLed (quadrantChip (x / 8) (y / 8)) (x % 8) (8 - y % 8 - 1) state] } ∧
      (matrixSetPixel t 15 0 1).matrix = t.matrix ++ [DriverCall.setLed 3 7 7 1] := by
  refine ⟨?_, ?_⟩
  · rw [matrixSetPixel_inside t x y state hx hy]
    have h : 8 - y % 8 - 1 = 7 - y % 8 := by omega
    rw [h]
  · rw [matrixSetPixel_inside_log t 15 0 1 (by omega) (by omega)]
    rfl

theorem matrixSetPixel_single_write_witness :
    matrixSetPixel scenarioTable 15 0 1 =
        { scenarioTable with matrix := scenarioTable.matrix ++
            [DriverCall.setLed (quadrantChip (15 / 8) (0 / 8)) (15 % 8) (8 - 0 % 8 - 1) 1] } ∧
      (matrixSetPixel scenarioTable 15 0 1).matrix =
        scenarioTable.matrix ++ [DriverCall.setLed 3 7 7 1] :=
  matrixSetPixel_single_write scenarioTable 15 0 1 (by decide) (by decide)

/-- C2: a coordinate pair with `x >= 16` or `y >= 16` makes `matrixSetPixel`
return the object unchanged: no driver call is logged and no member is
touched. -/
theorem matrixSetPixel_out_of_bounds (t : Table) (x y state : Nat)
    (h : 16 ≤ x ∨ 16 ≤ y) : matrixSetPixel t x y state = t := by
  unfold matrixSetPixel
  rw [if_pos (by unfold NUM_MATRIX_ROW_COL; omega)]

theorem matrixSetPixel_out_of_bounds_witness :
    matrixSetPixel scenarioTable 16 0 1 = scenarioTable ∧
      matrixSetPixel scenarioTable 3 255 1 = scenarioTable :=
  ⟨matrixSetPixel_out_of_bounds scenarioTable 16 0 1 (Or.inl (by decide)),
    matrixSetPixel_out_of_bounds scenarioTable 3 255 1 (Or.inr (by decide))⟩

/-- C7: whatever the object held before, `matrixFullOn` appends to the driver
log exactly the row writes of `chipRowPairs`, each with the bitmask
`MATRIX_ROW_FULL`, and touches nothing else; there are
`NUM_MATRIX_DRIVERS * NUM_MATRIX_DRIVER_ROW_COL = 32` of them, the pairs are
exactly those with chip below 4 and row below 8, no write is repeated and all
bits of the bitmask are set; the result is the one of calling `matrixSetRow`
for every pair. -/
theorem matrixFullOn_row_writes (t : Table) :
    matrixFullOn t = { t with matrix := t.matrix ++ chipRowPairs.map fullRow } ∧
      (chipRowPairs.map fullRow).length = NUM_MATRIX_DRIVERS * NUM_MATRIX_DRIVER_ROW_COL ∧
      (chipRowPairs.map fullRow).length = 32 ∧
      (∀ chip row, (chip, row) ∈ chipRowPairs ↔ chip < 4 ∧ row < 8) ∧
      (∀ chip row, chip < 4 → row < 8 →
        DriverCall.setRow chip row 255 ∈ chipRowPairs.map fullRow) ∧
      (chipRowPairs.map fullRow).Nodup ∧
      MATRIX_ROW_FULL = 2 ^ 8 - 1 ∧
      matrixFullOn t = setRowForAll chipRowPairs t := by
  refine ⟨matrixFullOn_eq t, by decide, by decide, ?_, ?_, ?_, by decide, ?_⟩
  · intro chip row
    exact mem_chipRowPairs chip row
  · intro chip row hc hr
    exact List.mem_map.mpr ⟨(chip, row), (mem_chipRowPairs chip row).mpr ⟨hc, hr⟩, rfl⟩
  · exact List.Nodup.map fullRow_injective (by decide)
  · rw [matrixFullOn_eq, setRowForAll_eq]

theorem matrixFullOn_row_writes_witness :
    DriverCall.setRow 3 7 255 ∈ chipRowPairs.map fullRow ∧
      (matrixFullOn scenarioTable).matrix.length = 32 := by
  have h := matrixFullOn_row_writes scenarioTable
  refine ⟨h.2.2.2.2.1 3 7 (by decide) (by decide), ?_⟩
  rw [h.1]
  exact h.2.2.1


/-- C9: for `x` and `y` below 16 the driver call `matrixSetPixel` makes is a
single `setLed` whose address triple is unique, with the chip below
`NUM_MATRIX_DRIVERS = 4` and both local coordinates below 8; the `int` value
of `N - (y mod N) - 1` lies in `[0, 8)`, so storing it in a `uint8_t` does not
wrap. -/
theorem matrixSetPixel_address_valid (t : Table) (x y state : Nat)
    (hx : x < 16) (hy : y < 16) :
    (∃! a : Nat × Nat × Nat, (matrixSetPixel t x y state).matrix =
        t.matrix ++ [DriverCall.setLed a.1 a.2.1 a.2.2 state]) ∧
      (∀ chip outputColumn outputRow : Nat,
        (matrixSetPixel t x y state).matrix =
            t.matrix ++ [DriverCall.setLed chip outputColumn outputRow state] →
          chip < NUM_MATRIX_DRIVERS ∧ outputRow < NUM_MATRIX_DRIVER_ROW_COL ∧
            outputColumn < NUM_MATRIX_DRIVER_ROW_COL ∧ (outputRow : Int) = outputXExpr y) ∧
      0 ≤ outputXExpr y ∧ outputXExpr y < 8 := by
  have hlog := matrixSetPixel_inside_log t x y state hx hy
  refine ⟨⟨(quadrantChip (x / 8) (y / 8), x % 8, 7 - y % 8), hlog, ?_⟩, ?_,
    (outputXExpr_range y).1, (outputXExpr_range y).2⟩
  · rintro ⟨a, b, c⟩ ha
    rw [hlog] at ha
    have h := List.append_cancel_left ha
    simp only [List.cons.injEq, DriverCall.setLed.injEq, and_true] at h
    simp only [Prod.mk.injEq]
    exact ⟨h.1.symm, h.2.1.symm, h.2.2.symm⟩
  · intro chip outputColumn outputRow ha
    rw [hlog] at ha
    have h := List.append_cancel_left ha
    simp only [List.cons.injEq, DriverCall.setLed.injEq, and_true] at h
    obtain ⟨h1, h2, h3⟩ := h
    refine ⟨?_, ?_, ?_, ?_⟩
    · rw [← h1]; exact quadrantChip_lt _ _
    · rw [← h3]; unfold NUM_MATRIX_DRIVER_ROW_COL; omega
    · rw [← h2]; unfold NUM_MATRIX_DRIVER_ROW_COL; omega
    · rw [← h3]; exact outputX_cast y

theorem matrixSetPixel_address_valid_witness :
    (∃! a : Nat × Nat × Nat, (matrixSetPixel scenarioTable 9 12 1).matrix =
        scenarioTable.matrix ++ [DriverCall.setLed a.1 a.2.1 a.2.2 1]) ∧
      (∀ chip outputColumn outputRow : Nat,
        (matrixSetPixel scenarioTable 9 12 1).matrix =
            scenarioTable.matrix ++ [DriverCall.setLed chip outputColumn outputRow 1] →
          chip < NUM_MATRIX_DRIVERS ∧ outputRow < NUM_MATRIX_DRIVER_ROW_COL ∧
            outputColumn < NUM_MATRIX_DRIVER_ROW_COL ∧ (outputRow : Int) = outputXExpr 12) ∧
      0 ≤ outputXExpr 12 ∧ outputXExpr 12 < 8 :=
  matrixSetPixel_address_valid scenarioTable 9 12 1 (by decide) (by decide)

/-- C10: the addressing of `matrixSetPixel` is a bijection between the pixels
of the 16x16 panel and the LEDs of the four 8x8 chips: two in-bounds pixels
whose writes carry the same (chip, row, column) triple are the same pixel, and
every triple with chip below 4 and both coordinates below 8 is written by some
in-bounds pixel. -/
theorem matrixSetPixel_addressing_bijective :
    (∀ (t t' : Table) (x y x' y' state state' a b c : Nat),
      x < 16 → y < 16 → x' < 16 → y' < 16 →
      (matrixSetPixel t x y state).matrix = t.matrix ++ [DriverCall.setLed a b c state] →
      (matrixSetPixel t' x' y' state').matrix = t'.matrix ++ [DriverCall.setLed a b c state'] →
      x = x' ∧ y = y') ∧
    (∀ a b c : Nat, a < 4 → b < 8 → c < 8 →
      ∃ x y, x < 16 ∧ y < 16 ∧ ∀ (t : Table) (state : Nat),
        (matrixSetPixel t x y state).matrix = t.matrix ++ [DriverCall.setLed a b c state]) := by
  constructor
  · intro t t' x y x' y' state state' a b c hx hy hx' hy' h h'
    rw [matrixSetPixel_inside_log t x y state hx hy] at h
    rw [matrixSetPixel_inside_log t' x' y' state' hx' hy'] at h'
    have e := List.append_cancel_left h
    have e' := List.append_cancel_left h'
    simp only [List.cons.injEq, DriverCall.setLed.injEq, and_true] at e e'
    obtain ⟨e1, e2, e3⟩ := e
    obtain ⟨e1', e2', e3'⟩ := e'
    have hq := quadrantChip_inj (x / 8) (y / 8) (x' / 8) (y' / 8)
      (by omega) (by omega) (by omega) (by omega) (by rw [e1, e1'])
    omega
  · intro a b c ha hb hc
    interval_cases a
    · refine ⟨b, 15 - c, by omega, by omega, fun t state => ?_⟩
      rw [matrixSetPixel_inside_log t _ _ state (by omega) (by omega)]
      have h1 : b / 8 = 0 := by omega
      have h2 : (15 - c) / 8 = 1 := by omega
      have h3 : b % 8 = b := by omega
      have h4 : 7 - (15 - c) % 8 = c := by omega
      rw [h1, h2, h3, h4]
      rfl
    · refine ⟨8 + b, 15 - c, by omega, by omega, fun t state => ?_⟩
      rw [matrixSetPixel_inside_log t _ _ state (by omega) (by omega)]
      have h1 : (8 + b) / 8 = 1 := by omega
      have h2 : (15 - c) / 8 = 1 := by omega
      have h3 : (8 + b) % 8 = b := by omega
      have h4 : 7 - (15 - c) % 8 = c := by omega
      rw [h1, h2, h3, h4]
      rfl
    · refine ⟨b, 7 - c, by omega, by omega, fun t state => ?_⟩
      rw [matrixSetPixel_inside_log t _ _ state (by omega) (by omega)]
      have h1 : b / 8 = 0 := by omega
      have h2 : (7 - c) / 8 = 0 := by omega
      have h3 : b % 8 = b := by omega
      have h4 : 7 - (7 - c) % 8 = c := by omega
      rw [h1, h2, h3, h4]
      rfl
    · refine ⟨8 + b, 7 - c, by omega, by omega, fun t state => ?_⟩
      rw [matrixSetPixel_inside_log t _ _ state (by omega) (by omega)]
      have h1 : (8 + b) / 8 = 1 := by omega
      have h2 : (7 - c) / 8 = 0 := by omega
      have h3 : (8 + b) % 8 = b := by omega
      have h4 : 7 - (7 - c) % 8 = c := by omega
      rw [h1, h2, h3, h4]
      rfl

theorem matrixSetPixel_addressing_bijective_witness :
    ((3 : Nat) = 3 ∧ (12 : Nat) = 12) ∧
      ∃ x y, x < 16 ∧ y < 16 ∧ ∀ (t : Table) (state : Nat),
        (matrixSetPixel t x y state).matrix = t.matrix ++ [DriverCall.setLed 1 2 5 state] :=
  ⟨matrixSetPixel_addressing_bijective.1 scenarioTable scenarioTable 3 12 3 12 1 0 0 3 3
      (by decide) (by decide) (by decide) (by decide) (by decide) (by decide),
    matrixSetPixel_addressing_bijective.2 1 2 5 (by decide) (by decide) (by decide)⟩

/-! ## Input debouncer: auxiliary facts -/

theorem elapsed_eq_sub (now last : Nat) (h : last ≤ now) (hn : now < 2 ^ 32) :
    elapsed now last = now - last := by
  unfold elapsed
  omega

theorem pollButton_quiet (inp : PollInput) (t : Table) (i : Nat)
    (h : elapsed (inp.millisCheck i) (t.lastButtonEdgeTime i) < t.buttonDebounceDelay) :
    pollButton inp t i = t := by
  unfold pollButton
  rw [if_neg (by omega)]

theorem pollButton_same (inp : PollInput) (t : Table) (i : Nat)
    (h : sampleState (inp.digitalRead i) = t.lastButtonState i) :
    pollButton inp t i = t := by
  unfold pollButton
  by_cases h1 : elapsed (inp.millisCheck i) (t.lastButtonEdgeTime i) ≥ t.buttonDebounceDelay
  · rw [if_pos h1]
    simp [h]
  · rw [if_neg h1]

theorem pollButton_edge (inp : PollInput) (t : Table) (i : Nat)
    (h1 : elapsed (inp.millisCheck i) (t.lastButtonEdgeTime i) ≥ t.buttonDebounceDelay)
    (h2 : sampleState (inp.digitalRead i) ≠ t.lastButtonState i) :
    pollButton inp t i =
      { t with
        lastButtonState := Function.update t.lastButtonState i (sampleState (inp.digitalRead i))
        lastButtonEdgeTime := Function.update t.lastButtonEdgeTime i (inp.millisEdge i % 2 ^ 32)
        callbackLog := t.callbackLog ++
          edgeCalls t.buttonCallback i (sampleState (inp.digitalRead i)) } := by
  unfold pollButton
  rw [if_pos h1]
  simp only [ne_eq, h2, not_false_eq_true, if_true]
  cases hcb : t.buttonCallback <;> simp [edgeCalls, hcb]

theorem pollButton_cases (inp : PollInput) (t : Table) (i : Nat) :
    pollButton inp t i = t ∨
    pollButton inp t i =
      { t with
        lastButtonState := Function.update t.lastButtonState i (sampleState (inp.digitalRead i))
        lastButtonEdgeTime := Function.update t.lastButtonEdgeTime i (inp.millisEdge i % 2 ^ 32)
        callbackLog := t.callbackLog ++
          edgeCalls t.buttonCallback i (sampleState (inp.digitalRead i)) } := by
  by_cases h1 : elapsed (inp.millisCheck i) (t.lastButtonEdgeTime i) ≥ t.buttonDebounceDelay
  · by_cases h2 : sampleState (inp.digitalRead i) = t.lastButtonState i
    · exact Or.inl (pollButton_same inp t i h2)
    · exact Or.inr (pollButton_edge inp t i h1 h2)
  · exact Or.inl (pollButton_quiet inp t i (by omega))

theorem filter_edgeCalls_of_ne (cb : Option Nat) (i j state : Nat) (h : j ≠ i) :
    (edgeCalls cb j state).filter (fun c => decide (c.button = i)) = [] := by
  cases cb <;> simp [edgeCalls, h]

theorem filter_edgeCalls_self (cb : Option Nat) (i state : Nat) :
    (edgeCalls cb i state).filter (fun c => decide (c.button = i)) = edgeCalls cb i state := by
  cases cb <;> simp [edgeCalls]

theorem view_pollButton_of_ne (inp : PollInput) (t : Table) (i j : Nat) (h : j ≠ i) :
    view (pollButton inp t j) i = view t i := by
  rcases pollButton_cases inp t j with h1 | h1
  · rw [h1]
  · rw [h1]
    simp [view, callsFor, Function.update_noteq (Ne.symm h), List.filter_append,
      filter_edgeCalls_of_ne _ i j _ h]

theorem view_pollButton_congr (inp : PollInput) (t t' : Table) (i : Nat)
    (h : view t i = view t' i) :
    view (pollButton inp t i) i = view (pollButton inp t' i) i := by
  have h' := h
  simp only [view, Prod.mk.injEq] at h'
  obtain ⟨h1, h2, h3, h4, h5⟩ := h'
  by_cases hq : elapsed (inp.millisCheck i) (t.lastButtonEdgeTime i) ≥ t.buttonDebounceDelay
  · by_cases hs : sampleState (inp.digitalRead i) = t.lastButtonState i
    · rw [pollButton_same inp t i hs, pollButton_same inp t' i (h1 ▸ hs), h]
    · rw [pollButton_edge inp t i hq hs,
        pollButton_edge inp t' i (by rw [← h2, ← h3]; exact hq) (by rw [← h1]; exact hs)]
      simp only [callsFor] at h5
      simp [view, callsFor, List.filter_append, h3, h4, h5]
  · rw [pollButton_quiet inp t i (by omega),
      pollButton_quiet inp t' i (by rw [← h2, ← h3]; omega), h]

theorem view_foldl_of_not_mem (inp : PollInput) (i : Nat) (l : List Nat) (t : Table)
    (h : i ∉ l) : view (l.foldl (pollButton inp) t) i = view t i := by
  induction l generalizing t with
  | nil => rfl
  | cons j l ih =>
    simp only [List.mem_cons, not_or] at h
    rw [List.foldl_cons, ih _ h.2, view_pollButton_of_ne inp t i j (Ne.symm h.1)]

theorem view_foldl_of_mem (inp : PollInput) (i : Nat) (l : List Nat) (t : Table)
    (hl : l.Nodup) (h : i ∈ l) :
    view (l.foldl (pollButton inp) t) i = view (pollButton inp t i) i := by
  induction l generalizing t with
  | nil => simp at h
  | cons j l ih =>
    rw [List.nodup_cons] at hl
    rw [List.foldl_cons]
    by_cases hji : j = i
    · subst hji
      exact view_foldl_of_not_mem inp j l _ hl.1
    · have hmem : i ∈ l := by
        rcases List.mem_cons.mp h with h | h
        · exact absurd h.symm hji
        · exact h
      rw [ih _ hl.2 hmem]
      exact view_pollButton_congr inp _ _ i (view_pollButton_of_ne inp t i j hji)

theorem view_pollButtons (inp : PollInput) (t : Table) (i : Nat) (hi : i < NUM_BUTTONS) :
    view (pollButtons inp t) i = view (pollButton inp t i) i :=
  view_foldl_of_mem inp i _ t (List.nodup_range _) (List.mem_range.mpr hi)

theorem pollButton_log (inp : PollInput) (t : Table) (j : Nat) :
    ∃ new, (pollButton inp t j).callbackLog = t.callbackLog ++ new := by
  rcases pollButton_cases inp t j with h1 | h1
  · exact ⟨[], by rw [h1]; simp⟩
  · exact ⟨_, by rw [h1]⟩

theorem foldl_pollButton_log (inp : PollInput) (l : List Nat) (t : Table) :
    ∃ new, (l.foldl (pollButton inp) t).callbackLog = t.callbackLog ++ new := by
  induction l generalizing t with
  | nil => exact ⟨[], by simp⟩
  | cons j l ih =>
    obtain ⟨n1, h1⟩ := pollButton_log inp t j
    obtain ⟨n2, h2⟩ := ih (pollButton inp t j)
    exact ⟨n1 ++ n2, by rw [List.foldl_cons, h2, h1, List.append_assoc]⟩

theorem pollButtons_log (inp : PollInput) (t : Table) :
    ∃ new, (pollButtons inp t).callbackLog = t.callbackLog ++ new :=
  foldl_pollButton_log inp _ t

/-- The view of a button that the poll skips or finds unchanged. -/
theorem view_pollButtons_of_skip (inp : PollInput) (t : Table) (i : Nat)
    (hi : i < NUM_BUTTONS) (h : pollButton inp t i = t) :
    view (pollButtons inp t) i = view t i := by
  rw [view_pollButtons inp t i hi, h]

/-- The view of a button on which the poll confirms an edge. -/
theorem view_pollButtons_of_edge (inp : PollInput) (t : Table) (i : Nat)
    (hi : i < NUM_BUTTONS)
    (h1 : elapsed (inp.millisCheck i) (t.lastButtonEdgeTime i) ≥ t.buttonDebounceDelay)
    (h2 : sampleState (inp.digitalRead i) ≠ t.lastButtonState i) :
    view (pollButtons inp t) i =
      (sampleState (inp.digitalRead i), inp.millisEdge i % 2 ^ 32, t.buttonDebounceDelay,
        t.buttonCallback,
        callsFor t i ++ edgeCalls t.buttonCallback i (sampleState (inp.digitalRead i))) := by
  rw [view_pollButtons inp t i hi, pollButton_edge inp t i h1 h2]
  simp [view, callsFor, List.filter_append, filter_edgeCalls_self]

/-- The calls a poll adds, seen through the filter of one button. -/
theorem new_calls_filter (t t' : Table) (i : Nat) (new calls : List CallbackCall)
    (hlog : t'.callbackLog = t.callbackLog ++ new)
    (hcalls : callsFor t' i = callsFor t i ++ calls) :
    new.filter (fun c => decide (c.button = i)) = calls := by
  unfold callsFor at hcalls
  rw [hlog, List.filter_append] at hcalls
  exact List.append_cancel_left hcalls

/-- A button the poll skips or finds unchanged keeps its record and gets no
callback. -/
theorem pollButtons_of_skip (inp : PollInput) (t : Table) (i : Nat)
    (hi : i < NUM_BUTTONS) (h : pollButton inp t i = t) :
    (pollButtons inp t).lastButtonState i = t.lastButtonState i ∧
      (pollButtons inp t).lastButtonEdgeTime i = t.lastButtonEdgeTime i ∧
      ∃ new, (pollButtons inp t).callbackLog = t.callbackLog ++ new ∧
        ∀ c ∈ new, c.button ≠ i := by
  have hv := view_pollButtons_of_skip inp t i hi h
  simp only [view, Prod.mk.injEq] at hv
  obtain ⟨h1, h2, -, -, h5⟩ := hv
  obtain ⟨new, hnew⟩ := pollButtons_log inp t
  refine ⟨h1, h2, new, hnew, ?_⟩
  have hf := new_calls_filter t _ i new [] hnew (by rw [h5, List.append_nil])
  intro c hc hcb
  have : c ∈ new.filter (fun c => decide (c.button = i)) :=
    List.mem_filter.mpr ⟨hc, by simp [hcb]⟩
  rw [hf] at this
  exact absurd this (List.not_mem_nil c)

/-- One poll seen from a button that is inside its quiet period. -/
theorem view_step_quiet (inp : PollInput) (s : Table) (i : Nat) (hi : i < NUM_BUTTONS)
    (st e d : Nat) (cb : Option Nat) (calls : List CallbackCall)
    (hv : view s i = (st, e, d, cb, calls))
    (hq : elapsed (inp.millisCheck i) e < d) :
    view (pollButtons inp s) i = (st, e, d, cb, calls) := by
  have hv' := hv
  simp only [view, Prod.mk.injEq] at hv'
  obtain ⟨-, h2, h3, -, -⟩ := hv'
  rw [view_pollButtons_of_skip inp s i hi (pollButton_quiet inp s i (by rw [h2, h3]; exact hq))]
  exact hv

/-- One poll seen from a button on which an edge is confirmed. -/
theorem view_step_edge (inp : PollInput) (s : Table) (i : Nat) (hi : i < NUM_BUTTONS)
    (st e d : Nat) (cb : Option Nat) (calls : List CallbackCall)
    (hv : view s i = (st, e, d, cb, calls))
    (hq : elapsed (inp.millisCheck i) e ≥ d)
    (hs : sampleState (inp.digitalRead i) ≠ st) :
    view (pollButtons inp s) i =
      (sampleState (inp.digitalRead i), inp.millisEdge i % 2 ^ 32, d, cb,
        calls ++ edgeCalls cb i (sampleState (inp.digitalRead i))) := by
  simp only [view, Prod.mk.injEq] at hv
  obtain ⟨h1, h2, h3, h4, h5⟩ := hv
  rw [view_pollButtons_of_edge inp s i hi (by rw [h2, h3]; exact hq) (by rw [h1]; exact hs),
    h3, h4, h5]

/-! ## Input debouncer: the properties -/

/-- C3: while `millis() - lastButtonEdgeTime[i]` is below the debounce delay,
`pollButtons` keeps the recorded state and the edge time of button `i` and
makes no callback for it, whatever level the pin shows; conversely a poll that
changes the recorded state of button `i` is one where that difference has
reached the delay. -/
theorem pollButtons_quiet_period (inp : PollInput) (t : Table) (i : Nat)
    (hi : i < NUM_BUTTONS) :
    (elapsed (inp.millisCheck i) (t.lastButtonEdgeTime i) < t.buttonDebounceDelay →
      (pollButtons inp t).lastButtonState i = t.lastButtonState i ∧
        (pollButtons inp t).lastButtonEdgeTime i = t.lastButtonEdgeTime i ∧
        ∃ new, (pollButtons inp t).callbackLog = t.callbackLog ++ new ∧
          ∀ c ∈ new, c.button ≠ i) ∧
    ((pollButtons inp t).lastButtonState i ≠ t.lastButtonState i →
      elapsed (inp.millisCheck i) (t.lastButtonEdgeTime i) ≥ t.buttonDebounceDelay) := by
  have key : elapsed (inp.millisCheck i) (t.lastButtonEdgeTime i) < t.buttonDebounceDelay →
      (pollButtons inp t).lastButtonState i = t.lastButtonState i ∧
        (pollButtons inp t).lastButtonEdgeTime i = t.lastButtonEdgeTime i ∧
        ∃ new, (pollButtons inp t).callbackLog = t.callbackLog ++ new ∧
          ∀ c ∈ new, c.button ≠ i :=
    fun h => pollButtons_of_skip inp t i hi (pollButton_quiet inp t i h)
  refine ⟨key, fun hne => ?_⟩
  by_contra hlt
  exact hne (key (by omega)).1

theorem pollButtons_quiet_period_witness :
    ((pollButtons (PollInput.atTime 10 pressed0) scenarioTable).lastButtonState 0 =
        scenarioTable.lastButtonState 0 ∧
      (pollButtons (PollInput.atTime 10 pressed0) scenarioTable).lastButtonEdgeTime 0 =
        scenarioTable.lastButtonEdgeTime 0 ∧
      ∃ new, (pollButtons (PollInput.atTime 10 pressed0) scenarioTable).callbackLog =
          scenarioTable.callbackLog ++ new ∧ ∀ c ∈ new, c.button ≠ 0) ∧
    elapsed ((PollInput.atTime 20 pressed0).millisCheck 0) (scenarioTable.lastButtonEdgeTime 0) ≥
      scenarioTable.buttonDebounceDelay :=
  ⟨(pollButtons_quiet_period (PollInput.atTime 10 pressed0) scenarioTable 0 (by decide)).1
      (by decide),
    (pollButtons_quiet_period (PollInput.atTime 20 pressed0) scenarioTable 0 (by decide)).2
      (by decide)⟩

/-- C4: at a poll where the clock reads `now` for button `i`, the quiet period
is over and the sampled state `!digitalRead(pin)` differs from the recorded
one, `pollButtons` makes exactly one callback call for button `i`, with
arguments `(i, newState)`, when a callback is registered and none when the
pointer is `NULL`; afterwards `getButtonState(i)` is the new state and the edge
time of `i` is `now`. -/
theorem pollButtons_confirmed_edge (inp : PollInput) (t : Table) (i now : Nat)
    (hi : i < NUM_BUTTONS) (hnow : now < 2 ^ 32)
    (hcheck : inp.millisCheck i = now) (hedge : inp.millisEdge i = now)
    (hdelay : elapsed now (t.lastButtonEdgeTime i) ≥ t.buttonDebounceDelay)
    (hstate : sampleState (inp.digitalRead i) ≠ t.lastButtonState i) :
    getButtonState (pollButtons inp t) i = sampleState (inp.digitalRead i) ∧
      (pollButtons inp t).lastButtonEdgeTime i = now ∧
      ∃ new, (pollButtons inp t).callbackLog = t.callbackLog ++ new ∧
        (∀ fn, t.buttonCallback = some fn →
          new.filter (fun c => decide (c.button = i)) =
            [CallbackCall.mk fn i (sampleState (inp.digitalRead i))]) ∧
        (t.buttonCallback = none → new.filter (fun c => decide (c.button = i)) = []) := by
  have hv := view_pollButtons_of_edge inp t i hi (by rw [hcheck]; exact hdelay) hstate
  simp only [view, Prod.mk.injEq] at hv
  obtain ⟨h1, h2, -, -, h5⟩ := hv
  obtain ⟨new, hnew⟩ := pollButtons_log inp t
  have hf := new_calls_filter t _ i new _ hnew h5
  refine ⟨h1, ?_, new, hnew, ?_, ?_⟩
  · rw [h2, hedge]
    exact Nat.mod_eq_of_lt hnow
  · intro fn hfn
    rw [hf, hfn]
    rfl
  · intro hnone
    rw [hf, hnone]
    rfl

theorem pollButtons_confirmed_edge_witness :
    getButtonState (pollButtons (PollInput.atTime 20 pressed0) scenarioTable) 0 =
        sampleState ((PollInput.atTime 20 pressed0).digitalRead 0) ∧
      (pollButtons (PollInput.atTime 20 pressed0) scenarioTable).lastButtonEdgeTime 0 = 20 ∧
      ∃ new, (pollButtons (PollInput.atTime 20 pressed0) scenarioTable).callbackLog =
          scenarioTable.callbackLog ++ new ∧
        (∀ fn, scenarioTable.buttonCallback = some fn →
          new.filter (fun c => decide (c.button = 0)) =
            [CallbackCall.mk fn 0 (sampleState ((PollInput.atTime 20 pressed0).digitalRead 0))]) ∧
        (scenarioTable.buttonCallback = none →
          new.filter (fun c => decide (c.button = 0)) = []) :=
  pollButtons_confirmed_edge (PollInput.atTime 20 pressed0) scenarioTable 0 20
    (by decide) (by decide) rfl rfl (by decide) (by decide)

/-- C5: a button whose sampled state equals its recorded state gets no
callback from `pollButtons` and keeps its recorded state and edge time, at any
clock reading; and any number of successive polls in which every button is
sampled in its recorded state return the object exactly as it was, so nothing
is logged. -/
theorem pollButtons_unchanged_input (t : Table) :
    (∀ (inp : PollInput) (i : Nat), i < NUM_BUTTONS →
      sampleState (inp.digitalRead i) = t.lastButtonState i →
      (pollButtons inp t).lastButtonState i = t.lastButtonState i ∧
        (pollButtons inp t).lastButtonEdgeTime i = t.lastButtonEdgeTime i ∧
        ∃ new, (pollButtons inp t).callbackLog = t.callbackLog ++ new ∧
          ∀ c ∈ new, c.button ≠ i) ∧
    (∀ inps : List PollInput,
      (∀ inp ∈ inps, ∀ i, i < NUM_BUTTONS →
        sampleState (inp.digitalRead i) = t.lastButtonState i) →
      pollMany inps t = t) := by
  refine ⟨fun inp i hi h => pollButtons_of_skip inp t i hi (pollButton_same inp t i h), ?_⟩
  have one : ∀ inp : PollInput,
      (∀ i, i < NUM_BUTTONS → sampleState (inp.digitalRead i) = t.lastButtonState i) →
      pollButtons inp t = t := by
    intro inp h
    have aux : ∀ l : List Nat, (∀ i ∈ l, i < NUM_BUTTONS) →
        l.foldl (pollButton inp) t = t := by
      intro l
      induction l with
      | nil => intro _; rfl
      | cons j l ih =>
        intro hl
        rw [List.foldl_cons, pollButton_same inp t j (h j (hl j (List.mem_cons_self j l)))]
        exact ih (fun i hi => hl i (List.mem_cons_of_mem j hi))
    exact aux _ (fun i hi => List.mem_range.mp hi)
  intro inps
  induction inps with
  | nil => intro _; rfl
  | cons inp inps ih =>
    intro h
    have h1 : pollButtons inp t = t := one inp (h inp (List.mem_cons_self inp inps))
    have h2 : pollMany inps t = t := ih (fun q hq => h q (List.mem_cons_of_mem inp hq))
    unfold pollMany at h2 ⊢
    rw [List.foldl_cons, h1]
    exact h2

theorem pollButtons_unchanged_input_witness :
    ((pollButtons (PollInput.atTime 500 pressed0) scenarioTable).lastButtonState 3 =
        scenarioTable.lastButtonState 3 ∧
      (pollButtons (PollInput.atTime 500 pressed0) scenarioTable).lastButtonEdgeTime 3 =
        scenarioTable.lastButtonEdgeTime 3 ∧
      ∃ new, (pollButtons (PollInput.atTime 500 pressed0) scenarioTable).callbackLog =
          scenarioTable.callbackLog ++ new ∧ ∀ c ∈ new, c.button ≠ 3) ∧
    pollMany [PollInput.atTime 100 allReleased, PollInput.atTime 200 allReleased,
      PollInput.atTime 300 allReleased] scenarioTable = scenarioTable :=
  ⟨(pollButtons_unchanged_input scenarioTable).1 (PollInput.atTime 500 pressed0) 3
      (by decide) (by decide),
    (pollButtons_unchanged_input scenarioTable).2 _ (by
      intro inp hinp i _
      simp only [List.mem_cons, List.mem_singleton, List.not_mem_nil, or_false] at hinp
      rcases hinp with h | h | h <;> subst h <;> rfl)⟩

/-- C6, as the scenario is written: in the start state (released, edge time 0)
with a delay of 20 ms, the poll at 0 ms that finds button 0 pressed makes no
callback and leaves the button released, because `0 - 0 < 20`. -/
theorem scenario_poll_at_zero_is_ignored :
    (pollButtons (PollInput.atTime 0 pressed0) scenarioTable).callbackLog = [] ∧
      sampleState ((PollInput.atTime 0 pressed0).digitalRead 0) = 1 ∧
      getButtonState (pollButtons (PollInput.atTime 0 pressed0) scenarioTable) 0 = 0 := by
  decide

/-- C6, amended: with delay 20 ms, a callback `fn` registered and button `i`
released with edge time 0, a poll at 0 ms is ignored whatever it samples (a
press included); the poll at `t0 >= 20` ms that samples the button pressed
calls `fn(i, 1)` and sets the edge time to `t0`; the poll at `t0 + 10` is
ignored whatever it samples (a release included), the button stays pressed;
the poll at `t0 + 25` that samples it released calls `fn(i, 0)`.  The lists
of calls are those made for button `i`, in order. -/
theorem debounce_scenario (t : Table) (i fn t0 : Nat) (l0 l1 l2 l3 : Nat → Nat)
    (hi : i < NUM_BUTTONS)
    (hdelay : t.buttonDebounceDelay = 20) (hcb : t.buttonCallback = some fn)
    (hstate : t.lastButtonState i = 0) (hedge : t.lastButtonEdgeTime i = 0)
    (ht0 : 20 ≤ t0) (hmax : t0 + 25 < 2 ^ 32)
    (h1 : l1 i = LOW) (h3 : l3 i = HIGH) :
    (callsFor (pollMany [PollInput.atTime 0 l0] t) i = callsFor t i ∧
      getButtonState (pollMany [PollInput.atTime 0 l0] t) i = 0 ∧
      (pollMany [PollInput.atTime 0 l0] t).lastButtonEdgeTime i = 0) ∧
    (callsFor (pollMany [PollInput.atTime 0 l0, PollInput.atTime t0 l1] t) i =
        callsFor t i ++ [CallbackCall.mk fn i 1] ∧
      getButtonState (pollMany [PollInput.atTime 0 l0, PollInput.atTime t0 l1] t) i = 1 ∧
      (pollMany [PollInput.atTime 0 l0, PollInput.atTime t0 l1] t).lastButtonEdgeTime i = t0) ∧
    (callsFor (pollMany [PollInput.atTime 0 l0, PollInput.atTime t0 l1,
        PollInput.atTime (t0 + 10) l2] t) i = callsFor t i ++ [CallbackCall.mk fn i 1] ∧
      getButtonState (pollMany [PollInput.atTime 0 l0, PollInput.atTime t0 l1,
        PollInput.atTime (t0 + 10) l2] t) i = 1 ∧
      (pollMany [PollInput.atTime 0 l0, PollInput.atTime t0 l1,
        PollInput.atTime (t0 + 10) l2] t).lastButtonEdgeTime i = t0) ∧
    (callsFor (pollMany [PollInput.atTime 0 l0, PollInput.atTime t0 l1,
        PollInput.atTime (t0 + 10) l2, PollInput.atTime (t0 + 25) l3] t) i =
        callsFor t i ++ [CallbackCall.mk fn i 1, CallbackCall.mk fn i 0] ∧
      getButtonState (pollMany [PollInput.atTime 0 l0, PollInput.atTime t0 l1,
        PollInput.atTime (t0 + 10) l2, PollInput.atTime (t0 + 25) l3] t) i = 0 ∧
      (pollMany [PollInput.atTime 0 l0, PollInput.atTime t0 l1,
        PollInput.atTime (t0 + 10) l2, PollInput.atTime (t0 + 25) l3] t).lastButtonEdgeTime i =
        t0 + 25) := by
  have e1 : sampleState (l1 i) = 1 := by rw [h1]; rfl
  have e3 : sampleState (l3 i) = 0 := by rw [h3]; rfl
  have v : view t i = (0, 0, 20, some fn, callsFor t i) := by
    simp only [view, hstate, hedge, hdelay, hcb]
  -- the poll at 0 ms: still in the quiet period
  have v0 := view_step_quiet (PollInput.atTime 0 l0) t i hi _ _ _ _ _ v (by
    show elapsed 0 0 < 20
    unfold elapsed; omega)
  -- the poll at t0: the press is confirmed
  have v1 := view_step_edge (PollInput.atTime t0 l1) _ i hi _ _ _ _ _ v0
    (by show elapsed t0 0 ≥ 20; unfold elapsed; omega)
    (by show sampleState (l1 i) ≠ 0; rw [e1]; decide)
  have m1 : (PollInput.atTime t0 l1).millisEdge i % 2 ^ 32 = t0 := by
    show t0 % 2 ^ 32 = t0
    omega
  have r1 : sampleState ((PollInput.atTime t0 l1).digitalRead i) = 1 := e1
  rw [m1, r1] at v1
  -- the poll at t0 + 10: inside the window
  have v2 := view_step_quiet (PollInput.atTime (t0 + 10) l2) _ i hi _ _ _ _ _ v1 (by
    show elapsed (t0 + 10) t0 < 20
    unfold elapsed; omega)
  -- the poll at t0 + 25: the release is confirmed
  have v3 := view_step_edge (PollInput.atTime (t0 + 25) l3) _ i hi _ _ _ _ _ v2
    (by show elapsed (t0 + 25) t0 ≥ 20; unfold elapsed; omega)
    (by show sampleState (l3 i) ≠ 1; rw [e3]; decide)
  have m3 : (PollInput.atTime (t0 + 25) l3).millisEdge i % 2 ^ 32 = t0 + 25 := by
    show (t0 + 25) % 2 ^ 32 = t0 + 25
    omega
  have r3 : sampleState ((PollInput.atTime (t0 + 25) l3).digitalRead i) = 0 := e3
  rw [m3, r3] at v3
  simp only [edgeCalls, List.append_assoc, List.singleton_append] at v1 v2 v3
  simp only [view, Prod.mk.injEq] at v0 v1 v2 v3
  simp only [pollMany, List.foldl_cons, List.foldl_nil, getButtonState]
  exact ⟨⟨v0.2.2.2.2, v0.1, v0.2.1⟩, ⟨v1.2.2.2.2, v1.1, v1.2.1⟩, ⟨v2.2.2.2.2, v2.1, v2.2.1⟩,
    ⟨v3.2.2.2.2, v3.1, v3.2.1⟩⟩

theorem debounce_scenario_witness :
    (callsFor (pollMany [PollInput.atTime 0 pressed0] scenarioTable) 0 =
        callsFor scenarioTable 0 ∧
      getButtonState (pollMany [PollInput.atTime 0 pressed0] scenarioTable) 0 = 0 ∧
      (pollMany [PollInput.atTime 0 pressed0] scenarioTable).lastButtonEdgeTime 0 = 0) ∧
    (callsFor (pollMany [PollInput.atTime 0 pressed0, PollInput.atTime 20 pressed0]
        scenarioTable) 0 = callsFor scenarioTable 0 ++ [CallbackCall.mk 7 0 1] ∧
      getButtonState (pollMany [PollInput.atTime 0 pressed0, PollInput.atTime 20 pressed0]
        scenarioTable) 0 = 1 ∧
      (pollMany [PollInput.atTime 0 pressed0, PollInput.atTime 20 pressed0]
        scenarioTable).lastButtonEdgeTime 0 = 20) ∧
    (callsFor (pollMany [PollInput.atTime 0 pressed0, PollInput.atTime 20 pressed0,
        PollInput.atTime (20 + 10) allReleased] scenarioTable) 0 =
        callsFor scenarioTable 0 ++ [CallbackCall.mk 7 0 1] ∧
      getButtonState (pollMany [PollInput.atTime 0 pressed0, PollInput.atTime 20 pressed0,
        PollInput.atTime (20 + 10) allReleased] scenarioTable) 0 = 1 ∧
      (pollMany [PollInput.atTime 0 pressed0, PollInput.atTime 20 pressed0,
        PollInput.atTime (20 + 10) allReleased] scenarioTable).lastButtonEdgeTime 0 = 20) ∧
    (callsFor (pollMany [PollInput.atTime 0 pressed0, PollInput.atTime 20 pressed0,
        PollInput.atTime (20 + 10) allReleased, PollInput.atTime (20 + 25) allReleased]
        scenarioTable) 0 =
        callsFor scenarioTable 0 ++ [CallbackCall.mk 7 0 1, CallbackCall.mk 7 0 0] ∧
      getButtonState (pollMany [PollInput.atTime 0 pressed0, PollInput.atTime 20 pressed0,
        PollInput.atTime (20 + 10) allReleased, PollInput.atTime (20 + 25) allReleased]
        scenarioTable) 0 = 0 ∧
      (pollMany [PollInput.atTime 0 pressed0, PollInput.atTime 20 pressed0,
        PollInput.atTime (20 + 10) allReleased, PollInput.atTime (20 + 25) allReleased]
        scenarioTable).lastButtonEdgeTime 0 = 20 + 25) :=
  debounce_scenario scenarioTable 0 7 20 pressed0 pressed0 allReleased allReleased
    (by decide) rfl rfl rfl rfl (by decide) (by decide) rfl rfl

/-- C8: the constructor assigns neither `lastButtonState` nor
`lastButtonEdgeTime`; built in memory that is not zeroed it leaves button 0
recorded as pressed with a non-zero edge time. -/
theorem constructor_leaves_button_arrays :
    getButtonState (InteractiveCoffeeTable 50 dirtyStorage) 0 = 1 ∧
      (InteractiveCoffeeTable 50 dirtyStorage).lastButtonEdgeTime 0 = 1000 ∧
      (InteractiveCoffeeTable 50 dirtyStorage).buttonDebounceDelay = 50 ∧
      (InteractiveCoffeeTable 50 dirtyStorage).buttonCallback = none := by
  decide

end ICT
